import Mathlib

/-! Advent calendar board (`src/App.jsx`).

A shallow embedding of the three subsystems of `src/App.jsx`:

* the codec (`encodeState`, `decodeState`) with its callers `exportCode`,
  `handleImportCode` and the start-up hydration effect;
* the coordinate mapping (`imgAspect`, `calendarHeight`, `viewportScale`, `eff`,
  the renderer's scale and the drag handlers' pointer mapping);
* the door registry and its click / drag handlers (`defaultDoors`, `updateDoor`,
  `onClickDoor`, `onMouseDownDoor`, `onMove`, `onUp`).

Modelling conventions.

* A JavaScript value that can sit in the board state is a `Json` tree; `undefined`
  (the result of reading a missing property) is `none : Option Json`.
* JavaScript numbers are the rationals `ℚ`: arithmetic is exact, so rounding error,
  `NaN` and the infinities are outside the model. Every division below is by a
  divisor the theorems assume non-zero.
* React state is one record `AppState`; a handler is a function on that record.
* `lz-string` and the built-in `JSON` object are not part of the repository; they
  enter as the parameter `TextCodec`.
-/

namespace AdventCalendar

/-! ## JavaScript values -/

/-- A JSON value: what `JSON.parse` returns and what the board state holds. -/
inductive Json where
  | null
  | bool (b : Bool)
  | num (q : ℚ)
  | str (s : String)
  | arr (xs : List Json)
  | obj (fs : List (String × Json))

namespace Json

instance : Inhabited Json := ⟨Json.null⟩

/-- JavaScript truthiness (`if (d)`, `a || b`): `null`, `false`, `0` and `''` are falsy. -/
def truthy : Json → Bool
  | null => false
  | bool b => b
  | num q => decide (q ≠ 0)
  | str s => decide (s ≠ "")
  | arr _ => true
  | obj _ => true

/-- Property read `v.k` on a non-null value; `none` is `undefined`. Only records
carry the property names the program reads (`doors`, `bg`, `id`, `open`, ...). -/
def getProp : Json → String → Option Json
  | obj fs, k => fs.lookup k
  | _, _ => none

end Json

open Json

/-- The JavaScript `a || b` with `a` possibly `undefined`. -/
def orElse (a : Option Json) (b : Json) : Json :=
  match a with
  | some v => if v.truthy then v else b
  | none => b

/-- Strict equality `a === b` between two property values: primitives compare by
value, two arrays or two records are distinct references. -/
def strictEq : Option Json → Option Json → Bool
  | none, none => true
  | some Json.null, some Json.null => true
  | some (Json.bool a), some (Json.bool b) => a == b
  | some (Json.num a), some (Json.num b) => decide (a = b)
  | some (Json.str a), some (Json.str b) => a == b
  | _, _ => false

/-! ## The codec -/

/-- The text transforms `src/App.jsx` calls but does not define:
`JSON.stringify` / `JSON.parse` and
`LZ.compressToEncodedURIComponent` / `LZ.decompressFromEncodedURIComponent`.
`parse s = none` is a thrown `SyntaxError`; `decompress c = none` is the `null`
the decompressor returns. -/
structure TextCodec where
  stringify : Json → String
  parse : String → Option Json
  compress : String → String
  decompress : String → Option String

/-- The contract of the two libraries (spec §4.1, a reversible text transform):
parsing undoes `JSON.stringify` and decompressing undoes compressing. -/
def TextCodec.Reversible (K : TextCodec) : Prop :=
  (∀ v, K.parse (K.stringify v) = some v) ∧ (∀ s, K.decompress (K.compress s) = some s)

/-- Source line 22:
`try{return LZ.compressToEncodedURIComponent(JSON.stringify(state))}catch(e){return ''}`.
Both calls are total on `Json` trees, so the `catch` branch is never taken. -/
def encodeState (K : TextCodec) (state : Json) : String :=
  K.compress (K.stringify state)

/-- Source line 23:
`try{const s=LZ.decompressFromEncodedURIComponent(code); return JSON.parse(s)}catch(e){return null}`.
When the decompressor returns `null`, `JSON.parse(null)` reads the text `null` and
returns `null`; when `JSON.parse` throws, the `catch` returns `null`. -/
def decodeState (K : TextCodec) (code : String) : Json :=
  match K.decompress code with
  | none => Json.null
  | some s =>
    match K.parse s with
    | some v => v
    | none => Json.null

/-! ## Application state -/

/-- The modal state `{open, content}`. -/
structure Modal where
  isOpen : Bool
  content : Option Json

/-- A reveal scheduled by `setTimeout(() => setModal({open:true, content}), delay)`. -/
structure Reveal where
  delay : Nat
  content : Option Json

/-- The box `{width, height}` of `displaySize` and `eff`. -/
structure Size where
  width : ℚ
  height : ℚ

/-- The part of `getBoundingClientRect()` the handlers read. -/
structure Rect where
  left : ℚ
  top : ℚ

/-- The record `imgNatural = {w, h, aspect}` stored when a background image loads. -/
structure ImgNatural where
  w : ℚ
  h : ℚ
  aspect : ℚ

/-- The drag session `dragRef.current = {dragging, id, ox, oy}`. -/
structure DragRef where
  dragging : Bool
  id : Option Json
  ox : ℚ
  oy : ℚ

/-- The React state of `App` (lines 26-39, 144-145) plus the pending timers. -/
structure AppState where
  doors : Json
  bgImage : Json
  editMode : Bool
  selected : Option Json
  globalName : String
  displaySize : Size
  imgNatural : Option ImgNatural
  dragRef : DragRef
  modal : Modal
  timers : List Reveal

def baseWidth : ℚ := 1920

def baseHeight : ℚ := 1080

/-- Lines 86-91: the payload `{doors, bg: bgImage, name: globalName}`. -/
def payload (s : AppState) : Json :=
  Json.obj [("doors", s.doors), ("bg", s.bgImage), ("name", Json.str s.globalName)]

/-- Lines 86-91. -/
def exportCode (K : TextCodec) (edit : Bool) (s : AppState) : String :=
  let code := encodeState K (payload s)
  if edit then "/editmode/" ++ code else "/" ++ code

/-- Lines 93-96:
`const d = decodeState(text); if(d){setDoors(d.doors||doors); setBgImage(d.bg||null); if(edit) setEditMode(true)}`. -/
def handleImportCode (K : TextCodec) (text : String) (edit : Bool) (s : AppState) : AppState :=
  let d := decodeState K text
  if d.truthy then
    { s with
      doors := orElse (d.getProp "doors") s.doors
      bgImage := orElse (d.getProp "bg") Json.null
      editMode := if edit then true else s.editMode }
  else s

/-- `path.replace(/^\//,'')`: drop one leading slash. -/
def stripLeadingSlash (pathname : String) : String :=
  match pathname.data with
  | c :: cs => if c = '/' then String.mk cs else pathname
  | [] => pathname

/-- Lines 42-52, the start-up hydration effect; `defaults` is the built-in
registry `defaultDoors`. -/
def hydrate (K : TextCodec) (defaults : Json) (pathname : String) (s : AppState) :
    AppState :=
  let path := stripLeadingSlash pathname
  if path.startsWith "editmode/" then
    let code := (path.splitOn "/").getD 1 ""
    if code = "" then s
    else
      let d := decodeState K code
      if d.truthy then
        { s with
          doors := orElse (d.getProp "doors") defaults
          bgImage := orElse (d.getProp "bg") Json.null }
      else s
  else if path = "" then s
  else
    let d := decodeState K path
    if d.truthy then
      { s with
        doors := orElse (d.getProp "doors") defaults
        bgImage := orElse (d.getProp "bg") Json.null }
    else s

/-! ## Coordinate mapping -/

/-- The JavaScript `Math.round`: the nearest integer, halves going up. -/
def jsRound (x : ℚ) : ℤ := ⌊x + 1 / 2⌋

/-- Line 185 (and 206): `imgNatural?.aspect || (baseWidth / baseHeight)`; an aspect
of `0` is falsy. -/
def imgAspect (imgNatural : Option ImgNatural) : ℚ :=
  match imgNatural with
  | some n => if n.aspect = 0 then baseWidth / baseHeight else n.aspect
  | none => baseWidth / baseHeight

/-- Line 186. -/
def calendarWidth : ℚ := baseWidth

/-- Line 187 (and 207, `calHeight`): `Math.round(calendarWidth / imgAspect)`. -/
def calendarHeight (imgNatural : Option ImgNatural) : ℤ :=
  jsRound (calendarWidth / imgAspect imgNatural)

/-- Line 191:
`Math.min(window.innerWidth/calendarWidth, window.innerHeight/calendarHeight)`. -/
def viewportScale (imgNatural : Option ImgNatural) (innerWidth innerHeight : ℕ) : ℚ :=
  min ((innerWidth : ℚ) / calendarWidth) ((innerHeight : ℚ) / (calendarHeight imgNatural : ℚ))

/-- Line 192: the rendered box
`{width: Math.round(calendarWidth * viewportScale), height: Math.round(calendarHeight * viewportScale)}`. -/
def eff (imgNatural : Option ImgNatural) (innerWidth innerHeight : ℕ) : Size :=
  { width := jsRound (calendarWidth * viewportScale imgNatural innerWidth innerHeight)
    height := jsRound ((calendarHeight imgNatural : ℚ) *
      viewportScale imgNatural innerWidth innerHeight) }

/-- Lines 63-73, `measure`: without an element the display size is the base size,
otherwise the rounded size of the element, at least one pixel each way. -/
def measure (r : Option Size) (s : AppState) : AppState :=
  match r with
  | none => { s with displaySize := { width := baseWidth, height := baseHeight } }
  | some r =>
    { s with displaySize :=
        { width := max 1 (jsRound r.width), height := max 1 (jsRound r.height) } }

/-- Lines 214-215, the renderer's `(scaleX, scaleY)`:
`effCalc.width / baseWidth` and `effCalc.height / calHeight`. -/
def renderScale (imgNatural : Option ImgNatural) (effCalc : Size) : ℚ × ℚ :=
  (effCalc.width / baseWidth, effCalc.height / (calendarHeight imgNatural : ℚ))

/-- Lines 216-217, the renderer's `(left, top)` of a door at base point `(x, y)`:
`d.x * scaleX` and `d.y * scaleY`. -/
def toDisplay (imgNatural : Option ImgNatural) (effCalc : Size) (x y : ℚ) : ℚ × ℚ :=
  (x * (renderScale imgNatural effCalc).1, y * (renderScale imgNatural effCalc).2)

/-- Lines 151-154 and 165-168, the drag handlers' `(pointerBaseX, pointerBaseY)`:
`(e.clientX - rect.left) / (displaySize.width / baseWidth)` and
`(e.clientY - rect.top) / (displaySize.height / baseHeight)`. -/
def pointerBase (displaySize : Size) (rect : Rect) (clientX clientY : ℚ) : ℚ × ℚ :=
  ((clientX - rect.left) / (displaySize.width / baseWidth),
   (clientY - rect.top) / (displaySize.height / baseHeight))

/-! ## Door registry -/

/-- Assignment of one property of a record: an existing key keeps its place and
takes the new value, a new key goes to the end. -/
def setField : List (String × Json) → String → Json → List (String × Json)
  | [], k, v => [(k, v)]
  | (k0, v0) :: fs, k, v => if k0 = k then (k, v) :: fs else (k0, v0) :: setField fs k v

/-- The own properties a spread `{...d}` copies. The registry holds door records;
the index properties of a string or array element are not modelled. -/
def ownFields : Json → List (String × Json)
  | Json.obj fs => fs
  | _ => []

/-- The record `{...d, ...patch}`. -/
def spread (d : Json) (patch : List (String × Json)) : Json :=
  Json.obj (patch.foldl (fun fs kv => setField fs kv.1 kv.2) (ownFields d))

/-- Line 122, the mapping `ds => ds.map(d => d.id===id ? ({...d,...patch}) : d)`. -/
def updateDoor (id : Option Json) (patch : List (String × Json)) (ds : List Json) :
    List Json :=
  ds.map fun d => if strictEq (d.getProp "id") id then spread d patch else d

/-- The state update `setDoors(f)` for a list function `f`. A registry that is not an
array makes `ds.map` raise a `TypeError`; the update then never lands. -/
def setDoors (f : List Json → List Json) (s : AppState) : AppState :=
  match s.doors with
  | Json.arr ds => { s with doors := Json.arr (f ds) }
  | _ => s

/-- The comparison `now >= openDate` of line 126 (and `openable`, line 213), with
`openDate` the epoch milliseconds of `new Date(d.openingDate)`, `none` for an
invalid date, against which every comparison is false. -/
def reached (now : ℤ) (openDate : Option ℤ) : Bool :=
  match openDate with
  | some t => decide (t ≤ now)
  | none => false

/-- JavaScript truthiness of a property value that may be `undefined`. -/
def truthyVal : Option Json → Bool
  | some v => v.truthy
  | none => false

/-- Lines 124-141. `dateOf v` is `new Date(v)` in epoch milliseconds and `now` is
`new Date()`. -/
def onClickDoor (dateOf : Option Json → Option ℤ) (now : ℤ) (d : Json) (s : AppState) :
    AppState :=
  let s1 :=
    if reached now (dateOf (d.getProp "openingDate")) && !s.editMode then
      if !truthyVal (d.getProp "open") then
        { setDoors (updateDoor (d.getProp "id") [("open", Json.bool true)]) s with
          timers := s.timers ++ [{ delay := 700, content := d.getProp "content" }] }
      else
        { s with modal := { isOpen := true, content := d.getProp "content" } }
    else s
  if s.editMode then { s1 with selected := d.getProp "id" } else s1

/-- A numeric property of a door; `none` when it is missing or not a number. -/
def numProp (d : Json) (k : String) : Option ℚ :=
  match d.getProp k with
  | some (Json.num q) => some q
  | _ => none

/-- Lines 146-156. Without an element the rectangle is `{left:0, top:0}`. A door
whose `x` or `y` is not a number would give a `NaN` offset, outside the model:
the result is then `none`. -/
def onMouseDownDoor (rect : Option Rect) (clientX clientY : ℚ) (d : Json) (s : AppState) :
    Option AppState :=
  if !s.editMode then some s
  else
    match numProp d "x", numProp d "y" with
    | some x, some y =>
      let p := pointerBase s.displaySize (rect.getD { left := 0, top := 0 }) clientX clientY
      some { s with dragRef :=
        { dragging := true, id := d.getProp "id", ox := p.1 - x, oy := p.2 - y } }
    | _, _ => none

/-- Lines 159-172. `rect` is `none` when `calendarRef.current` is not set. -/
def onMove (rect : Option Rect) (clientX clientY : ℚ) (s : AppState) : AppState :=
  if !s.dragRef.dragging then s
  else
    match rect with
    | none => s
    | some r =>
      let p := pointerBase s.displaySize r clientX clientY
      let nx := max 0 (p.1 - s.dragRef.ox)
      let ny := max 0 (p.2 - s.dragRef.oy)
      setDoors (updateDoor s.dragRef.id [("x", Json.num nx), ("y", Json.num ny)]) s

/-- Line 173. -/
def onUp (s : AppState) : AppState :=
  { s with dragRef := { dragging := false, id := some Json.null, ox := 0, oy := 0 } }

/-! ## The built-in registry -/

/-- A `Date` in local time, by its calendar fields (`month` is the 0-based index). -/
structure JsDate where
  year : ℤ
  month : ℕ
  date : ℕ
  hours : ℕ
  minutes : ℕ
  seconds : ℕ
  ms : ℕ

def isLeapYear (y : ℤ) : Bool :=
  (y % 4 == 0 && y % 100 != 0) || y % 400 == 0

def daysInMonth (y : ℤ) (m : ℕ) : ℕ :=
  if m = 1 then (if isLeapYear y then 29 else 28)
  else if m = 3 ∨ m = 5 ∨ m = 8 ∨ m = 10 then 30
  else 31

/-- A day-of-month beyond the end of its month rolls over into the following
months, as `Date` does. -/
def rollDays : ℕ → ℤ → ℕ → ℕ → ℤ × ℕ × ℕ
  | 0, y, m, d => (y, m, d)
  | fuel + 1, y, m, d =>
    if daysInMonth y m < d then
      if m = 11 then rollDays fuel (y + 1) 0 (d - daysInMonth y m)
      else rollDays fuel y (m + 1) (d - daysInMonth y m)
    else (y, m, d)

namespace JsDate

/-- A date the clock can return. -/
def Valid (t : JsDate) : Prop :=
  t.month ≤ 11 ∧ 1 ≤ t.date ∧ t.date ≤ daysInMonth t.year t.month

/-- The method `setMonth(m)` for a month index `0 ≤ m ≤ 11`. -/
def setMonth (t : JsDate) (m : ℕ) : JsDate :=
  let r := rollDays t.date t.year m t.date
  { t with year := r.1, month := r.2.1, date := r.2.2 }

/-- The method `setDate(n)` for `n ≥ 1`. -/
def setDate (t : JsDate) (n : ℕ) : JsDate :=
  let r := rollDays n t.year t.month n
  { t with year := r.1, month := r.2.1, date := r.2.2 }

/-- The method `setHours(h, m, s, ms)` for arguments within their ranges. -/
def setHours (t : JsDate) (h m s ms : ℕ) : JsDate :=
  { t with hours := h, minutes := m, seconds := s, ms := ms }

end JsDate

/-- Lines 4-18, the door built for index `i`; `now` is the `new Date()` taken for
that door and `toISOString` the method of that name (it depends on the time zone
of the host). -/
def defaultDoor (toISOString : JsDate → String) (now : JsDate) (i : ℕ) : Json :=
  Json.obj
    [("id", Json.num ((i : ℚ) + 1)),
     ("x", Json.num (((i % 6 : ℕ) : ℚ) * 150 + 20)),
     ("y", Json.num (((i / 6 : ℕ) : ℚ) * 120 + 20)),
     ("w", Json.num 120),
     ("h", Json.num 90),
     ("color", Json.str "#09a2e9ff"),
     ("borderRadius", Json.num 0),
     ("openingSide", Json.str "right"),
     ("outline", Json.str "thin"),
     ("background", Json.bool true),
     ("showNumber", Json.bool true),
     ("closedLabel", Json.str ""),
     ("content", Json.str (toString (i + 1))),
     ("openingDate",
      Json.str (toISOString ((((now.setMonth 11).setDate (i + 1)).setHours 0 0 0 0))))]

/-- Lines 4-18: `Array.from({length:24}).map((_,i) => ...)`; `clock i` is the
`new Date()` read while door `i` is built. -/
def defaultDoors (toISOString : JsDate → String) (clock : ℕ → JsDate) : List Json :=
  (List.range 24).map fun i => defaultDoor toISOString (clock i) i

/-- Lines 26-39 and 144-145: the initial values of the state hooks. -/
def initialState (defaults : Json) (pathname : String) : AppState :=
  { doors := defaults
    bgImage := Json.null
    editMode := pathname.startsWith "/editmode"
    selected := some Json.null
    globalName := "My Calendar"
    displaySize := { width := baseWidth, height := baseHeight }
    imgNatural := none
    dragRef := { dragging := false, id := some Json.null, ox := 0, oy := 0 }
    modal := { isOpen := false, content := some Json.null }
    timers := [] }

/-- The state after the two mount effects of lines 42-58. -/
def mount (K : TextCodec) (defaults : Json) (pathname : String) : AppState :=
  let s := hydrate K defaults pathname (initialState defaults pathname)
  if pathname = "/edit" then { s with editMode := true } else s

/-! ## The Board State shape and sample boards -/

/-- A record (as opposed to `null`, a primitive or an array). -/
def isRecord : Json → Bool
  | Json.obj _ => true
  | _ => false

/-- The Board State shape in the words of the spec (§3, §4.1): a record with a
sequence of door records, a background reference and a name. -/
def isBoardShape (v : Json) : Bool :=
  match v.getProp "doors", v.getProp "bg", v.getProp "name" with
  | some (Json.arr ds), some _, some (Json.str _) => ds.all isRecord
  | _, _, _ => false

/-- A door record with the fields the sample boards need. -/
def sampleDoor : Json :=
  Json.obj
    [("id", Json.num 1), ("x", Json.num 20), ("y", Json.num 20),
     ("color", Json.str "#09a2e9ff"), ("content", Json.str ""),
     ("openingDate", Json.str "2026-12-01")]

/-- A second door record, with id 2. -/
def secondDoor : Json :=
  Json.obj
    [("id", Json.num 2), ("x", Json.num 170), ("y", Json.num 20),
     ("color", Json.str "#09a2e9ff"), ("content", Json.str "2"),
     ("openingDate", Json.str "2026-12-02")]

/-- A `new Date(v)` for the sample boards: it reads the one date string they use
(2026-12-01, midnight UTC, in epoch milliseconds); anything else is an invalid date. -/
def sampleDateOf (v : Option Json) : Option ℤ :=
  match v with
  | some (Json.str t) => if t = "2026-12-01" then some 1796083200000 else none
  | _ => none

/-- The record stored for a square background image of 1000 by 1000 pixels. -/
def squareImage : ImgNatural := { w := 1000, h := 1000, aspect := 1 }

/-- A clock stopped on 31 October 2026, 09:30 local time. -/
def sampleClock (_ : ℕ) : JsDate :=
  { year := 2026, month := 9, date := 31, hours := 9, minutes := 30, seconds := 0, ms := 0 }

/-- A stand-in for `toISOString` in a host whose local time is UTC: the calendar
fields in order, the month counted from 1. -/
def sampleISO (t : JsDate) : String :=
  toString t.year ++ "-" ++ toString (t.month + 1) ++ "-" ++ toString t.date ++ "T"
    ++ toString t.hours ++ ":" ++ toString t.minutes ++ ":" ++ toString t.seconds ++ "."
    ++ toString t.ms ++ "Z"

/-- A view-mode board with no door, no background and the default name. -/
def blankBoard : AppState :=
  { doors := Json.arr []
    bgImage := Json.null
    editMode := false
    selected := some Json.null
    globalName := "My Calendar"
    displaySize := { width := baseWidth, height := baseHeight }
    imgNatural := none
    dragRef := { dragging := false, id := some Json.null, ox := 0, oy := 0 }
    modal := { isOpen := false, content := some Json.null }
    timers := [] }

/-- A view-mode board whose registry is the one sample door. -/
def sampleBoard : AppState :=
  { blankBoard with doors := Json.arr [sampleDoor] }

/-- The sample board in edit mode with a drag session on door 1, grabbed 30 base
units right of and 40 below its corner. -/
def draggingBoard : AppState :=
  { sampleBoard with
    editMode := true
    dragRef := { dragging := true, id := some (Json.num 1), ox := 30, oy := 40 } }

/-- An edit-mode board named `Noël 🎄` whose one door was recolored and moved. -/
def paintedBoard : AppState :=
  { blankBoard with
    doors := Json.arr (updateDoor (some (Json.num 1))
      [("color", Json.str "#ff0000"), ("x", Json.num 400), ("y", Json.num 300)] [sampleDoor])
    editMode := true
    globalName := "Noël 🎄" }

/-! ## A reference codec

A concrete `TextCodec` that meets the `Reversible` contract. Its text form is a
tagged prefix code and its compacted form writes every character of the text as a
run of `A` closed by `-`, so a code is a string over the URL-safe alphabet
`A`, `-`, and a string with a character outside that alphabet, such as `/`,
decompresses to no text. The URL-safe alphabet of `lz-string`,
`A-Z a-z 0-9 + - $`, does not hold `/` either. -/

namespace Reference

/-- A natural number in unary: `n` strokes and a full stop. -/
def writeNat (n : ℕ) : List Char := List.replicate n 'i' ++ ['.']

def readNat : List Char → Option (ℕ × List Char)
  | [] => none
  | c :: cs =>
    if c = 'i' then
      match readNat cs with
      | some (n, r) => some (n + 1, r)
      | none => none
    else if c = '.' then some (0, cs)
    else none

/-- A string: its length, then its characters. -/
def writeStr (s : String) : List Char := writeNat s.data.length ++ s.data

def readStr (cs : List Char) : Option (String × List Char) :=
  match readNat cs with
  | some (n, r) => if n ≤ r.length then some (String.mk (r.take n), r.drop n) else none
  | none => none

mutual
/-- The text of a value. -/
def ser : Json → List Char
  | Json.null => ['n']
  | Json.bool b => [if b then 't' else 'f']
  | Json.num q => 'q' :: writeNat (Encodable.encode q)
  | Json.str s => 's' :: writeStr s
  | Json.arr xs => 'a' :: serList xs
  | Json.obj fs => 'o' :: serFields fs
def serList : List Json → List Char
  | [] => ['.']
  | x :: xs => ',' :: (ser x ++ serList xs)
def serFields : List (String × Json) → List Char
  | [] => ['.']
  | (k, v) :: fs => ',' :: (writeStr k ++ (ser v ++ serFields fs))
end

mutual
/-- The reader of `ser`, with a bound on the number of nested calls. -/
def de : ℕ → List Char → Option (Json × List Char)
  | 0, _ => none
  | _ + 1, [] => none
  | n + 1, c :: cs =>
    if c = 'n' then some (Json.null, cs)
    else if c = 't' then some (Json.bool true, cs)
    else if c = 'f' then some (Json.bool false, cs)
    else if c = 'q' then
      match readNat cs with
      | some (k, r) =>
        match (Encodable.decode k : Option ℚ) with
        | some q => some (Json.num q, r)
        | none => none
      | none => none
    else if c = 's' then
      match readStr cs with
      | some (s, r) => some (Json.str s, r)
      | none => none
    else if c = 'a' then
      match deList n cs with
      | some (xs, r) => some (Json.arr xs, r)
      | none => none
    else if c = 'o' then
      match deFields n cs with
      | some (fs, r) => some (Json.obj fs, r)
      | none => none
    else none
def deList : ℕ → List Char → Option (List Json × List Char)
  | 0, _ => none
  | _ + 1, [] => none
  | n + 1, c :: cs =>
    if c = '.' then some ([], cs)
    else if c = ',' then
      match de n cs with
      | some (x, r) =>
        match deList n r with
        | some (xs, r2) => some (x :: xs, r2)
        | none => none
      | none => none
    else none
def deFields : ℕ → List Char → Option (List (String × Json) × List Char)
  | 0, _ => none
  | _ + 1, [] => none
  | n + 1, c :: cs =>
    if c = '.' then some ([], cs)
    else if c = ',' then
      match readStr cs with
      | some (k, r) =>
        match de n r with
        | some (v, r2) =>
          match deFields n r2 with
          | some (fs, r3) => some ((k, v) :: fs, r3)
          | none => none
        | none => none
      | none => none
    else none
end

mutual
/-- The number of nested reader calls the text of a value needs. -/
def cost : Json → ℕ
  | Json.null => 1
  | Json.bool _ => 1
  | Json.num _ => 1
  | Json.str _ => 1
  | Json.arr xs => 1 + costList xs
  | Json.obj fs => 1 + costFields fs
def costList : List Json → ℕ
  | [] => 1
  | x :: xs => 1 + (cost x + costList xs)
def costFields : List (String × Json) → ℕ
  | [] => 1
  | (_, v) :: fs => 1 + (cost v + costFields fs)
end

def stringify (v : Json) : String := String.mk (ser v)

def parse (s : String) : Option Json :=
  match de s.data.length s.data with
  | some (v, []) => some v
  | _ => none

/-- Every character as a run of `A` of the length of its code point, closed by `-`. -/
def compressChars : List Char → List Char
  | [] => []
  | c :: cs => List.replicate c.toNat 'A' ++ '-' :: compressChars cs

/-- The reader of `compressChars`; `n` counts the `A` of the run being read. A
character outside the alphabet, or an unclosed run, gives no text. -/
def decompressChars : ℕ → List Char → Option (List Char)
  | n, [] => if n = 0 then some [] else none
  | n, c :: cs =>
    if c = 'A' then decompressChars (n + 1) cs
    else if c = '-' then
      match decompressChars 0 cs with
      | some r => some (Char.ofNat n :: r)
      | none => none
    else none

def compress (s : String) : String := String.mk (compressChars s.data)

def decompress (s : String) : Option String :=
  match decompressChars 0 s.data with
  | some r => some (String.mk r)
  | none => none

end Reference

/-- The reference codec. -/
def refCodec : TextCodec :=
  { stringify := Reference.stringify
    parse := Reference.parse
    compress := Reference.compress
    decompress := Reference.decompress }

/-! # Lemmas -/

namespace Reference

theorem readNat_writeNat (n : ℕ) (rest : List Char) :
    readNat (writeNat n ++ rest) = some (n, rest) := by
  induction n with
  | zero => simp [writeNat, readNat]
  | succ n ih =>
    have h : writeNat (n + 1) ++ rest = 'i' :: (writeNat n ++ rest) := by
      simp [writeNat, List.replicate_succ]
    rw [h, readNat, if_pos rfl, ih]

theorem readStr_writeStr (s : String) (rest : List Char) :
    readStr (writeStr s ++ rest) = some (s, rest) := by
  simp [readStr, writeStr, List.append_assoc, readNat_writeNat]

mutual
theorem de_ser : ∀ (v : Json) (n : ℕ) (rest : List Char), cost v ≤ n →
    de n (ser v ++ rest) = some (v, rest)
  | Json.null, n, rest, h => by
    obtain ⟨m, rfl⟩ : ∃ m, n = m + 1 := ⟨n - 1, by simp [cost] at h; omega⟩
    simp [ser, de]
  | Json.bool b, n, rest, h => by
    obtain ⟨m, rfl⟩ : ∃ m, n = m + 1 := ⟨n - 1, by simp [cost] at h; omega⟩
    cases b <;> simp [ser, de]
  | Json.num q, n, rest, h => by
    obtain ⟨m, rfl⟩ : ∃ m, n = m + 1 := ⟨n - 1, by simp [cost] at h; omega⟩
    simp [ser, de, readNat_writeNat]
  | Json.str s, n, rest, h => by
    obtain ⟨m, rfl⟩ : ∃ m, n = m + 1 := ⟨n - 1, by simp [cost] at h; omega⟩
    simp [ser, de, readStr_writeStr]
  | Json.arr xs, n, rest, h => by
    obtain ⟨m, rfl⟩ : ∃ m, n = m + 1 := ⟨n - 1, by simp [cost] at h; omega⟩
    have hm : costList xs ≤ m := by simp [cost] at h; omega
    simp [ser, de, deList_serList xs m rest hm]
  | Json.obj fs, n, rest, h => by
    obtain ⟨m, rfl⟩ : ∃ m, n = m + 1 := ⟨n - 1, by simp [cost] at h; omega⟩
    have hm : costFields fs ≤ m := by simp [cost] at h; omega
    simp [ser, de, deFields_serFields fs m rest hm]
theorem deList_serList : ∀ (xs : List Json) (n : ℕ) (rest : List Char), costList xs ≤ n →
    deList n (serList xs ++ rest) = some (xs, rest)
  | [], n, rest, h => by
    obtain ⟨m, rfl⟩ : ∃ m, n = m + 1 := ⟨n - 1, by simp [costList] at h; omega⟩
    simp [serList, deList]
  | x :: xs, n, rest, h => by
    obtain ⟨m, rfl⟩ : ∃ m, n = m + 1 := ⟨n - 1, by simp [costList] at h; omega⟩
    have h1 : cost x ≤ m := by simp [costList] at h; omega
    have h2 : costList xs ≤ m := by simp [costList] at h; omega
    simp [serList, deList, List.append_assoc, de_ser x m _ h1, deList_serList xs m rest h2]
theorem deFields_serFields : ∀ (fs : List (String × Json)) (n : ℕ) (rest : List Char),
    costFields fs ≤ n → deFields n (serFields fs ++ rest) = some (fs, rest)
  | [], n, rest, h => by
    obtain ⟨m, rfl⟩ : ∃ m, n = m + 1 := ⟨n - 1, by simp [costFields] at h; omega⟩
    simp [serFields, deFields]
  | (k, v) :: fs, n, rest, h => by
    obtain ⟨m, rfl⟩ : ∃ m, n = m + 1 := ⟨n - 1, by simp [costFields] at h; omega⟩
    have h1 : cost v ≤ m := by simp [costFields] at h; omega
    have h2 : costFields fs ≤ m := by simp [costFields] at h; omega
    simp [serFields, deFields, List.append_assoc, readStr_writeStr, de_ser v m _ h1,
      deFields_serFields fs m rest h2]
end

mutual
theorem cost_le_length : ∀ v : Json, cost v ≤ (ser v).length
  | Json.null => by simp [cost, ser]
  | Json.bool _ => by simp [cost, ser]
  | Json.num _ => by simp [cost, ser]
  | Json.str _ => by simp [cost, ser]
  | Json.arr xs => by have := costList_le_length xs; simp [cost, ser]; omega
  | Json.obj fs => by have := costFields_le_length fs; simp [cost, ser]; omega
theorem costList_le_length : ∀ xs : List Json, costList xs ≤ (serList xs).length
  | [] => by simp [costList, serList]
  | x :: xs => by
    have := cost_le_length x
    have := costList_le_length xs
    simp [costList, serList]; omega
theorem costFields_le_length : ∀ fs : List (String × Json),
    costFields fs ≤ (serFields fs).length
  | [] => by simp [costFields, serFields]
  | (k, v) :: fs => by
    have := cost_le_length v
    have := costFields_le_length fs
    simp [costFields, serFields]; omega
end

theorem parse_stringify (v : Json) : parse (stringify v) = some v := by
  have h := de_ser v (ser v).length [] (cost_le_length v)
  simp only [List.append_nil] at h
  simp [parse, stringify, h]

theorem decompressChars_run (k n : ℕ) (rest : List Char) :
    decompressChars n (List.replicate k 'A' ++ rest) = decompressChars (n + k) rest := by
  induction k generalizing n with
  | zero => simp
  | succ k ih =>
    rw [List.replicate_succ, List.cons_append, decompressChars, if_pos rfl, ih]
    congr 1; omega

theorem decompressChars_compressChars (cs : List Char) :
    decompressChars 0 (compressChars cs) = some cs := by
  induction cs with
  | nil => simp [compressChars, decompressChars]
  | cons c cs ih =>
    rw [compressChars, decompressChars_run, decompressChars]
    simp [ih]

theorem decompress_compress (s : String) : decompress (compress s) = some s := by
  simp [decompress, compress, decompressChars_compressChars]

/-- A string that opens with `/` holds a character outside the code alphabet. -/
theorem decompress_slash (code : String) : decompress ("/" ++ code) = none := by
  simp [decompress, decompressChars]

end Reference

theorem refCodec_reversible : refCodec.Reversible :=
  ⟨Reference.parse_stringify, Reference.decompress_compress⟩

/-! ## Codec lemmas -/

theorem decodeState_encodeState_eq (K : TextCodec) (hK : K.Reversible) (v : Json) :
    decodeState K (encodeState K v) = v := by
  simp [decodeState, encodeState, hK.1 v, hK.2 (K.stringify v)]

theorem decodeState_refCodec_slash (code : String) :
    decodeState refCodec ("/" ++ code) = Json.null := by
  show (match Reference.decompress ("/" ++ code) with
    | none => Json.null
    | some s => match refCodec.parse s with
      | some v => v
      | none => Json.null) = Json.null
  rw [Reference.decompress_slash]

/-! ## Registry lemmas -/

theorem lookup_setField_self (fs : List (String × Json)) (k : String) (v : Json) :
    (setField fs k v).lookup k = some v := by
  induction fs with
  | nil => simp [setField, List.lookup]
  | cons kv fs ih =>
    obtain ⟨k0, v0⟩ := kv
    by_cases h : k0 = k
    · simp [setField, h, List.lookup]
    · have h2 : (k == k0) = false := by simpa using fun e => h e.symm
      simp [setField, h, List.lookup, h2, ih]

theorem lookup_setField_ne (fs : List (String × Json)) (k k2 : String) (v : Json)
    (hne : k2 ≠ k) : (setField fs k v).lookup k2 = fs.lookup k2 := by
  induction fs with
  | nil =>
    have h2 : (k2 == k) = false := by simpa using hne
    simp [setField, List.lookup, h2]
  | cons kv fs ih =>
    obtain ⟨k0, v0⟩ := kv
    by_cases h : k0 = k
    · subst h
      have h2 : (k2 == k0) = false := by simpa using hne
      simp [setField, List.lookup, h2]
    · by_cases h3 : k2 = k0
      · subst h3; simp [setField, h, List.lookup]
      · have h2 : (k2 == k0) = false := by simpa using h3
        simp [setField, h, List.lookup, h2, ih]

theorem onClickDoor_before_opening (dateOf : Option Json → Option ℤ) (d : Json) (t now : ℤ)
    (ht : dateOf (d.getProp "openingDate") = some t) (hnow : now < t) (s : AppState) :
    (onClickDoor dateOf now d s).doors = s.doors
      ∧ (onClickDoor dateOf now d s).modal = s.modal
      ∧ (onClickDoor dateOf now d s).timers = s.timers
      ∧ (onClickDoor dateOf now d s).editMode = s.editMode := by
  have hr : reached now (dateOf (d.getProp "openingDate")) = false := by
    simp [reached, ht, hnow]
  unfold onClickDoor
  simp only [hr, Bool.false_and]
  split <;> exact ⟨rfl, rfl, rfl, rfl⟩

/-! ## Coordinate lemmas -/

theorem jsRound_le_of_le (x : ℚ) (n : ℤ) (h : x ≤ n) : jsRound x ≤ n := by
  have h2 : jsRound x < n + 1 := by
    unfold jsRound
    rw [Int.floor_lt]
    push_cast
    linarith
  omega

theorem jsRound_nonneg (x : ℚ) (h : 0 ≤ x) : 0 ≤ jsRound x := by
  unfold jsRound
  rw [Int.le_floor]
  push_cast
  linarith

theorem jsRound_intCast (n : ℤ) : jsRound (n : ℚ) = n := by
  unfold jsRound
  rw [Int.floor_eq_iff]
  constructor <;> linarith

theorem calendarHeight_none : calendarHeight none = 1080 := by
  have h : calendarWidth / imgAspect none = ((1080 : ℤ) : ℚ) := by
    norm_num [calendarWidth, imgAspect, baseWidth, baseHeight]
  rw [calendarHeight, h, jsRound_intCast]

theorem calendarHeight_squareImage : calendarHeight (some squareImage) = 1920 := by
  have h : calendarWidth / imgAspect (some squareImage) = ((1920 : ℤ) : ℚ) := by
    norm_num [calendarWidth, imgAspect, baseWidth, squareImage]
  rw [calendarHeight, h, jsRound_intCast]

theorem viewportScale_nonneg (img : Option ImgNatural) (innerWidth innerHeight : ℕ)
    (hpos : 0 < calendarHeight img) : 0 ≤ viewportScale img innerWidth innerHeight := by
  have hc : (0 : ℚ) < (calendarHeight img : ℚ) := by exact_mod_cast hpos
  unfold viewportScale
  apply le_min
  · exact div_nonneg (Nat.cast_nonneg _) (by norm_num [calendarWidth, baseWidth])
  · exact div_nonneg (Nat.cast_nonneg _) hc.le

theorem one_le_jsRound_iff (x : ℚ) : 1 ≤ jsRound x ↔ 1 / 2 ≤ x := by
  unfold jsRound
  rw [Int.le_floor]
  push_cast
  constructor <;> intro h <;> linarith

theorem one_le_eff_width_iff (img : Option ImgNatural) (innerWidth innerHeight : ℕ)
    (hpos : 0 < calendarHeight img) :
    1 ≤ (eff img innerWidth innerHeight).width
      ↔ 1 ≤ innerWidth ∧ calendarHeight img ≤ 3840 * (innerHeight : ℤ) := by
  have hc : (0 : ℚ) < (calendarHeight img : ℚ) := by exact_mod_cast hpos
  have h1 : 1 ≤ (eff img innerWidth innerHeight).width
      ↔ 1 ≤ jsRound (calendarWidth * viewportScale img innerWidth innerHeight) := by
    show (1 : ℚ) ≤ ((jsRound _ : ℤ) : ℚ) ↔ _
    exact_mod_cast Iff.rfl
  have h2 : calendarWidth * viewportScale img innerWidth innerHeight
      = min (innerWidth : ℚ) (1920 * (innerHeight : ℚ) / (calendarHeight img : ℚ)) := by
    unfold viewportScale
    rw [mul_min_of_nonneg _ _ (by norm_num [calendarWidth, baseWidth])]
    congr 1
    · rw [mul_div_cancel₀]; norm_num [calendarWidth, baseWidth]
    · rw [mul_div_assoc]; norm_num [calendarWidth, baseWidth]
  rw [h1, one_le_jsRound_iff, h2, le_min_iff, le_div_iff₀ hc]
  constructor
  · rintro ⟨ha, hb⟩
    refine ⟨?_, ?_⟩
    · have : (0 : ℚ) < (innerWidth : ℚ) := by linarith
      exact_mod_cast this
    · have : (calendarHeight img : ℚ) ≤ 3840 * (innerHeight : ℚ) := by linarith
      exact_mod_cast this
  · rintro ⟨ha, hb⟩
    have ha2 : (1 : ℚ) ≤ (innerWidth : ℚ) := by exact_mod_cast ha
    have hb2 : (calendarHeight img : ℚ) ≤ 3840 * (innerHeight : ℚ) := by exact_mod_cast hb
    constructor <;> linarith

theorem one_le_eff_height_iff (img : Option ImgNatural) (innerWidth innerHeight : ℕ)
    (hpos : 0 < calendarHeight img) :
    1 ≤ (eff img innerWidth innerHeight).height
      ↔ 1 ≤ innerHeight ∧ 960 ≤ calendarHeight img * (innerWidth : ℤ) := by
  have hc : (0 : ℚ) < (calendarHeight img : ℚ) := by exact_mod_cast hpos
  have h1 : 1 ≤ (eff img innerWidth innerHeight).height
      ↔ 1 ≤ jsRound ((calendarHeight img : ℚ) * viewportScale img innerWidth innerHeight) := by
    show (1 : ℚ) ≤ ((jsRound _ : ℤ) : ℚ) ↔ _
    exact_mod_cast Iff.rfl
  have h2 : (calendarHeight img : ℚ) * viewportScale img innerWidth innerHeight
      = min ((calendarHeight img : ℚ) * (innerWidth : ℚ) / 1920) (innerHeight : ℚ) := by
    unfold viewportScale
    rw [mul_min_of_nonneg _ _ hc.le]
    congr 1
    · rw [mul_div_assoc]; norm_num [calendarWidth, baseWidth]
    · rw [mul_div_cancel₀ _ hc.ne.symm]
  rw [h1, one_le_jsRound_iff, h2, le_min_iff, le_div_iff₀ (by norm_num : (0 : ℚ) < 1920)]
  constructor
  · rintro ⟨ha, hb⟩
    refine ⟨?_, ?_⟩
    · have : (0 : ℚ) < (innerHeight : ℚ) := by linarith
      exact_mod_cast this
    · have : (960 : ℚ) ≤ (calendarHeight img : ℚ) * (innerWidth : ℚ) := by linarith
      exact_mod_cast this
  · rintro ⟨ha, hb⟩
    have ha2 : (1 : ℚ) ≤ (innerHeight : ℚ) := by exact_mod_cast ha
    have hb2 : (960 : ℚ) ≤ (calendarHeight img : ℚ) * (innerWidth : ℚ) := by exact_mod_cast hb
    constructor <;> linarith

/-- Where the calendar height equals `baseHeight` (as it does without a background
image) the pointer mapping undoes the renderer's scale on a non-degenerate box. -/
theorem pointerBase_toDisplay_of_baseHeight (img : Option ImgNatural) (e : Size) (rect : Rect)
    (x y : ℚ) (hw : e.width ≠ 0) (hh : e.height ≠ 0)
    (hcal : (calendarHeight img : ℚ) = baseHeight) :
    pointerBase e rect (rect.left + (toDisplay img e x y).1) (rect.top + (toDisplay img e x y).2)
      = (x, y) := by
  have hb : baseWidth ≠ 0 := by norm_num [baseWidth]
  have hb2 : baseHeight ≠ 0 := by norm_num [baseHeight]
  simp only [pointerBase, toDisplay, renderScale, hcal, add_sub_cancel_left]
  rw [mul_div_assoc, mul_div_assoc, div_self (div_ne_zero hw hb),
    div_self (div_ne_zero hh hb2), mul_one, mul_one]

theorem getProp_spread_xy (d : Json) (a b : Json) :
    (spread d [("x", a), ("y", b)]).getProp "x" = some a
      ∧ (spread d [("x", a), ("y", b)]).getProp "y" = some b := by
  constructor
  · show (setField (setField (ownFields d) "x" a) "y" b).lookup "x" = some a
    rw [lookup_setField_ne _ _ _ _ (by decide), lookup_setField_self]
  · show (setField (setField (ownFields d) "x" a) "y" b).lookup "y" = some b
    rw [lookup_setField_self]

theorem strictEq_eq (a b : Option Json) (h : strictEq a b = true) : a = b := by
  unfold strictEq at h
  split at h <;> simp_all

theorem getProp_eq_lookup_ownFields (d : Json) (k : String) :
    d.getProp k = (ownFields d).lookup k := by
  cases d <;> simp [Json.getProp, ownFields, List.lookup]

theorem lookup_foldl_setField_of_not_mem (patch : List (String × Json)) (k : String)
    (hk : k ∉ patch.map Prod.fst) (fs : List (String × Json)) :
    (patch.foldl (fun fs kv => setField fs kv.1 kv.2) fs).lookup k = fs.lookup k := by
  induction patch generalizing fs with
  | nil => rfl
  | cons p ps ih =>
    simp only [List.map_cons, List.mem_cons, not_or] at hk
    rw [List.foldl_cons, ih hk.2, lookup_setField_ne _ _ _ _ hk.1]

theorem lookup_foldl_setField_of_mem (patch : List (String × Json)) (k : String) (v : Json)
    (hnd : (patch.map Prod.fst).Nodup) (hmem : (k, v) ∈ patch) (fs : List (String × Json)) :
    (patch.foldl (fun fs kv => setField fs kv.1 kv.2) fs).lookup k = some v := by
  induction patch generalizing fs with
  | nil => simp at hmem
  | cons p ps ih =>
    simp only [List.map_cons, List.nodup_cons] at hnd
    rw [List.foldl_cons]
    rcases List.mem_cons.mp hmem with h | h
    · subst h
      rw [lookup_foldl_setField_of_not_mem ps k hnd.1, lookup_setField_self]
    · exact ih hnd.2 h _

theorem getProp_spread_of_not_mem (d : Json) (patch : List (String × Json)) (k : String)
    (hk : k ∉ patch.map Prod.fst) : (spread d patch).getProp k = d.getProp k := by
  rw [getProp_eq_lookup_ownFields d k]
  exact lookup_foldl_setField_of_not_mem patch k hk (ownFields d)

theorem getProp_spread_of_mem (d : Json) (patch : List (String × Json)) (k : String) (v : Json)
    (hnd : (patch.map Prod.fst).Nodup) (hmem : (k, v) ∈ patch) :
    (spread d patch).getProp k = some v :=
  lookup_foldl_setField_of_mem patch k v hnd hmem (ownFields d)

theorem index_eq_of_nodup (l : List (Option Json)) (h : l.Nodup) (i j : ℕ) (a : Option Json)
    (hi : l[i]? = some a) (hj : l[j]? = some a) : i = j := by
  obtain ⟨hil, _⟩ := List.getElem?_eq_some.mp hi
  obtain ⟨hjl, _⟩ := List.getElem?_eq_some.mp hj
  rcases Nat.lt_trichotomy i j with hlt | heq | hgt
  · exact absurd (hi.trans hj.symm) (List.nodup_iff_getElem?_ne_getElem?.mp h i j hlt hjl)
  · exact heq
  · exact absurd (hj.trans hi.symm) (List.nodup_iff_getElem?_ne_getElem?.mp h j i hgt hil)

theorem handleImportCode_globalName (K : TextCodec) (text : String) (edit : Bool)
    (s : AppState) : (handleImportCode K text edit s).globalName = s.globalName := by
  unfold handleImportCode
  simp only []
  split <;> rfl

theorem hydrate_globalName (K : TextCodec) (defaults : Json) (pathname : String)
    (s : AppState) : (hydrate K defaults pathname s).globalName = s.globalName := by
  unfold hydrate
  simp only []
  split_ifs <;> rfl

theorem mount_globalName (K : TextCodec) (defaults : Json) (pathname : String) :
    (mount K defaults pathname).globalName = "My Calendar" := by
  have h : (hydrate K defaults pathname (initialState defaults pathname)).globalName
      = "My Calendar" :=
    (hydrate_globalName K defaults pathname (initialState defaults pathname)).trans rfl
  unfold mount
  simp only []
  split
  · simpa using h
  · exact h

/-! ## Date lemmas -/

theorem daysInMonth_le (y : ℤ) (m : ℕ) : daysInMonth y m ≤ 31 := by
  unfold daysInMonth
  split_ifs <;> omega

theorem daysInMonth_december (y : ℤ) : daysInMonth y 11 = 31 := by
  simp [daysInMonth]

theorem rollDays_of_le (fuel : ℕ) (y : ℤ) (m d : ℕ) (h : d ≤ daysInMonth y m) :
    rollDays fuel y m d = (y, m, d) := by
  cases fuel with
  | zero => rfl
  | succ n => simp [rollDays, Nat.not_lt.mpr h]

theorem defaultDate_eq (t : JsDate) (ht : t.Valid) (i : ℕ) (hi : i < 24) :
    ((t.setMonth 11).setDate (i + 1)).setHours 0 0 0 0
      = { year := t.year, month := 11, date := i + 1, hours := 0, minutes := 0,
          seconds := 0, ms := 0 } := by
  have h1 : t.date ≤ daysInMonth t.year 11 := by
    rw [daysInMonth_december]
    exact ht.2.2.trans (daysInMonth_le _ _)
  have h2 : i + 1 ≤ daysInMonth t.year 11 := by
    rw [daysInMonth_december]; omega
  simp [JsDate.setMonth, JsDate.setDate, JsDate.setHours, rollDays_of_le _ _ _ _ h1,
    rollDays_of_le _ _ _ _ h2]

/-! # Claims -/

/-- C1. Round trip of the codec: for every codec meeting its contract and every
board state (any doors value, any background reference, any name), decoding the
encoded payload `{doors, bg, name}` gives the payload back, and reading its
three fields gives the same doors, background reference and name. -/
theorem decodeState_encodeState_payload (K : TextCodec) (hK : K.Reversible) (s : AppState) :
    decodeState K (encodeState K (payload s)) = payload s
      ∧ (decodeState K (encodeState K (payload s))).getProp "doors" = some s.doors
      ∧ (decodeState K (encodeState K (payload s))).getProp "bg" = some s.bgImage
      ∧ (decodeState K (encodeState K (payload s))).getProp "name"
          = some (Json.str s.globalName) := by
  rw [decodeState_encodeState_eq K hK]
  refine ⟨rfl, ?_, ?_, ?_⟩ <;> simp [payload, Json.getProp, List.lookup]

/-- C1, at the reference codec and two boards: one with zero doors and no
background, one with a recolored door and a non-ASCII name. -/
theorem decodeState_encodeState_payload_witness :
    refCodec.Reversible
      ∧ (decodeState refCodec (encodeState refCodec (payload blankBoard)) = payload blankBoard
        ∧ (decodeState refCodec (encodeState refCodec (payload blankBoard))).getProp "doors"
            = some blankBoard.doors
        ∧ (decodeState refCodec (encodeState refCodec (payload blankBoard))).getProp "bg"
            = some blankBoard.bgImage
        ∧ (decodeState refCodec (encodeState refCodec (payload blankBoard))).getProp "name"
            = some (Json.str blankBoard.globalName))
      ∧ decodeState refCodec (encodeState refCodec (payload paintedBoard))
          = payload paintedBoard :=
  ⟨refCodec_reversible,
   decodeState_encodeState_payload refCodec refCodec_reversible blankBoard,
   (decodeState_encodeState_payload refCodec refCodec_reversible paintedBoard).1⟩

/-- C2, as stated, fails: the code of the number `5`, and the code of a record
whose `doors` field is a number, decode to those very values, which are neither
`null` nor of the Board State shape. -/
theorem decodeState_returns_unshaped :
    decodeState refCodec (encodeState refCodec (Json.num 5)) = Json.num 5
      ∧ isBoardShape (Json.num 5) = false
      ∧ decodeState refCodec (encodeState refCodec (Json.obj [("doors", Json.num 1)]))
          = Json.obj [("doors", Json.num 1)]
      ∧ isBoardShape (Json.obj [("doors", Json.num 1)]) = false := by
  refine ⟨decodeState_encodeState_eq refCodec refCodec_reversible _, ?_,
    decodeState_encodeState_eq refCodec refCodec_reversible _, ?_⟩
  · simp [isBoardShape, Json.getProp]
  · simp [isBoardShape, Json.getProp, List.lookup]

/-- C2, amended. `decodeState` is total (it never throws); its result is `null`
when the string does not decompress and when the decompressed text does not
parse; otherwise it is the parsed value as it is, whatever its shape. A caller
that gets `null` keeps its state: `handleImportCode` changes nothing, and the
start-up hydration changes the state only on a truthy decoded value. -/
theorem decodeState_null_on_failure (K : TextCodec) (code : String) :
    (K.decompress code = none → decodeState K code = Json.null)
      ∧ (∀ t, K.decompress code = some t → K.parse t = none → decodeState K code = Json.null)
      ∧ (∀ t v, K.decompress code = some t → K.parse t = some v → decodeState K code = v)
      ∧ (decodeState K code = Json.null →
          ∀ edit s, handleImportCode K code edit s = s)
      ∧ (∀ defaults pathname s, hydrate K defaults pathname s = s
          ∨ ∃ c, (decodeState K c).truthy = true
              ∧ hydrate K defaults pathname s =
                { s with
                  doors := orElse ((decodeState K c).getProp "doors") defaults
                  bgImage := orElse ((decodeState K c).getProp "bg") Json.null }) := by
  refine ⟨?_, ?_, ?_, ?_, ?_⟩
  · intro h; simp [decodeState, h]
  · intro t h1 h2; simp [decodeState, h1, h2]
  · intro t v h1 h2; simp [decodeState, h1, h2]
  · intro h edit s; simp [handleImportCode, h, Json.truthy]
  · intro defaults pathname s
    unfold hydrate
    simp only []
    split_ifs with h1 h2 h3 h4 h5
    · exact Or.inl rfl
    · exact Or.inr ⟨_, h3, rfl⟩
    · exact Or.inl rfl
    · exact Or.inl rfl
    · exact Or.inr ⟨_, h5, rfl⟩
    · exact Or.inl rfl

/-- C3, as stated, fails: the exact string `exportCode(false)` returns opens with
`/`, a character outside the code alphabet, so it does not decode, and importing
it into a blank board sets nothing: the doors stay the empty registry, not the
exported one. -/
theorem handleImportCode_exported_path :
    (handleImportCode refCodec (exportCode refCodec false paintedBoard) false blankBoard).doors
        = Json.arr []
      ∧ paintedBoard.doors ≠ Json.arr [] := by
  constructor
  · simp [handleImportCode, exportCode, decodeState_refCodec_slash, Json.truthy, blankBoard]
  · simp [paintedBoard, updateDoor, sampleDoor]

/-- C3, amended. `exportCode(false)` returns `/` followed by the code of the
payload; for every board whose doors are a sequence, `handleImportCode` (with
`edit = false`) on that code, the exported string without its leading `/`, sets
the doors of the importing board to the exported doors and leaves its edit mode
as it was. -/
theorem handleImportCode_exported_code (K : TextCodec) (hK : K.Reversible) (s s2 : AppState)
    (ds : List Json) (hds : s.doors = Json.arr ds) :
    exportCode K false s = "/" ++ encodeState K (payload s)
      ∧ (handleImportCode K (encodeState K (payload s)) false s2).doors = s.doors
      ∧ (handleImportCode K (encodeState K (payload s)) false s2).editMode = s2.editMode := by
  refine ⟨by simp [exportCode], ?_, ?_⟩
  · simp [handleImportCode, decodeState_encodeState_eq K hK, payload, Json.truthy,
      Json.getProp, List.lookup, orElse, hds]
  · simp [handleImportCode, decodeState_encodeState_eq K hK, payload, Json.truthy]

/-- C3, amended, at the reference codec: the recolored and moved door of
`paintedBoard` arrives in the blank view-mode board with its color, `x` and `y`,
and the board stays in view mode. -/
theorem handleImportCode_exported_code_witness :
    refCodec.Reversible
      ∧ paintedBoard.doors = Json.arr
          [Json.obj
            [("id", Json.num 1), ("x", Json.num 400), ("y", Json.num 300),
             ("color", Json.str "#ff0000"), ("content", Json.str ""),
             ("openingDate", Json.str "2026-12-01")]]
      ∧ (exportCode refCodec false paintedBoard
            = "/" ++ encodeState refCodec (payload paintedBoard)
        ∧ (handleImportCode refCodec (encodeState refCodec (payload paintedBoard)) false
              blankBoard).doors = paintedBoard.doors
        ∧ (handleImportCode refCodec (encodeState refCodec (payload paintedBoard)) false
              blankBoard).editMode = blankBoard.editMode) :=
  have h : paintedBoard.doors = Json.arr
      [Json.obj
        [("id", Json.num 1), ("x", Json.num 400), ("y", Json.num 300),
         ("color", Json.str "#ff0000"), ("content", Json.str ""),
         ("openingDate", Json.str "2026-12-01")]] := by
    simp [paintedBoard, updateDoor, sampleDoor, spread, ownFields, setField, strictEq,
      Json.getProp, List.lookup]
  ⟨refCodec_reversible, h,
   handleImportCode_exported_code refCodec refCodec_reversible paintedBoard blankBoard _ h⟩

/-- C4. A door whose opening date lies after every one of a run of clicks stays
locked through the run, in view mode as in edit mode: the doors are unchanged (so
`open` never becomes true), the modal is unchanged and no reveal is scheduled. -/
theorem onClickDoor_locked (dateOf : Option Json → Option ℤ) (d : Json) (t : ℤ)
    (ht : dateOf (d.getProp "openingDate") = some t) (clicks : List ℤ)
    (hlocked : ∀ now ∈ clicks, now < t) (s : AppState) :
    (clicks.foldl (fun st now => onClickDoor dateOf now d st) s).doors = s.doors
      ∧ (clicks.foldl (fun st now => onClickDoor dateOf now d st) s).modal = s.modal
      ∧ (clicks.foldl (fun st now => onClickDoor dateOf now d st) s).timers = s.timers
      ∧ (clicks.foldl (fun st now => onClickDoor dateOf now d st) s).editMode = s.editMode := by
  induction clicks generalizing s with
  | nil => simp
  | cons now rest ih =>
    have h1 := onClickDoor_before_opening dateOf d t now ht (hlocked now (by simp)) s
    have h2 := ih (fun n hn => hlocked n (by simp [hn])) (onClickDoor dateOf now d s)
    simp only [List.foldl_cons]
    exact ⟨h2.1.trans h1.1, h2.2.1.trans h1.2.1, h2.2.2.1.trans h1.2.2.1,
      h2.2.2.2.trans h1.2.2.2⟩

/-- C4, at the sample board: three clicks before 2026-12-01 on its door, in view
mode, change neither the doors nor the modal nor the timers. -/
theorem onClickDoor_locked_witness :
    sampleDateOf (sampleDoor.getProp "openingDate") = some 1796083200000
      ∧ (∀ now ∈ ([0, 1796083199999, 1700000000000] : List ℤ), now < 1796083200000)
      ∧ (([0, 1796083199999, 1700000000000] : List ℤ).foldl
              (fun st now => onClickDoor sampleDateOf now sampleDoor st) sampleBoard).doors
            = sampleBoard.doors
        ∧ (([0, 1796083199999, 1700000000000] : List ℤ).foldl
              (fun st now => onClickDoor sampleDateOf now sampleDoor st) sampleBoard).modal
            = sampleBoard.modal
        ∧ (([0, 1796083199999, 1700000000000] : List ℤ).foldl
              (fun st now => onClickDoor sampleDateOf now sampleDoor st) sampleBoard).timers
            = sampleBoard.timers
        ∧ (([0, 1796083199999, 1700000000000] : List ℤ).foldl
              (fun st now => onClickDoor sampleDateOf now sampleDoor st) sampleBoard).editMode
            = sampleBoard.editMode :=
  ⟨by simp [sampleDateOf, sampleDoor, Json.getProp, List.lookup], by decide,
   onClickDoor_locked sampleDateOf sampleDoor 1796083200000
     (by simp [sampleDateOf, sampleDoor, Json.getProp, List.lookup])
     [0, 1796083199999, 1700000000000] (by decide) sampleBoard⟩

/-- C5. The drag update. Without an active session `onMove` changes nothing.
With one, on a registry `ds` and a display size of at least one pixel each way,
the registry becomes `ds.map f` for a door function `f` that leaves every door
whose id is not the session's as it is and gives every door whose id is the
session's the position `x = max(0, pointerBaseX - ox)`, `y = max(0, pointerBaseY - oy)`,
both non-negative. -/
theorem onMove_clamps (s : AppState) (rect : Rect) (clientX clientY : ℚ) (ds : List Json)
    (hds : s.doors = Json.arr ds) (_hw : 1 ≤ s.displaySize.width)
    (_hh : 1 ≤ s.displaySize.height) :
    (s.dragRef.dragging = false → ∀ r, onMove r clientX clientY s = s)
      ∧ (s.dragRef.dragging = true →
          ∃ f : Json → Json,
            (onMove (some rect) clientX clientY s).doors = Json.arr (ds.map f)
              ∧ (∀ d, strictEq (d.getProp "id") s.dragRef.id = false → f d = d)
              ∧ ∀ d, strictEq (d.getProp "id") s.dragRef.id = true →
                  (f d).getProp "x" = some (Json.num
                      (max 0 ((pointerBase s.displaySize rect clientX clientY).1 - s.dragRef.ox)))
                    ∧ (f d).getProp "y" = some (Json.num
                      (max 0 ((pointerBase s.displaySize rect clientX clientY).2 - s.dragRef.oy)))
                    ∧ 0 ≤ max 0 ((pointerBase s.displaySize rect clientX clientY).1 - s.dragRef.ox)
                    ∧ 0 ≤ max 0 ((pointerBase s.displaySize rect clientX clientY).2
                        - s.dragRef.oy)) := by
  constructor
  · intro h r
    simp [onMove, h]
  · intro h
    refine ⟨fun d => if strictEq (d.getProp "id") s.dragRef.id then
        spread d [("x", Json.num (max 0
            ((pointerBase s.displaySize rect clientX clientY).1 - s.dragRef.ox))),
          ("y", Json.num (max 0
            ((pointerBase s.displaySize rect clientX clientY).2 - s.dragRef.oy)))]
        else d, ?_, ?_, ?_⟩
    · simp [onMove, h, setDoors, hds, updateDoor]
    · intro d hd
      simp [hd]
    · intro d hd
      simp only [hd, if_true]
      exact ⟨(getProp_spread_xy d _ _).1, (getProp_spread_xy d _ _).2,
        le_max_left _ _, le_max_left _ _⟩

/-- C5, at the dragging board: the pointer at display point `(-500, -500)` implies
the base position `(-530, -540)` for door 1, and the door lands on `(0, 0)`. -/
theorem onMove_clamps_witness :
    draggingBoard.doors = Json.arr [sampleDoor]
      ∧ 1 ≤ draggingBoard.displaySize.width
      ∧ 1 ≤ draggingBoard.displaySize.height
      ∧ draggingBoard.dragRef.dragging = true
      ∧ strictEq (sampleDoor.getProp "id") draggingBoard.dragRef.id = true
      ∧ ∃ f : Json → Json,
          (onMove (some { left := 0, top := 0 }) (-500) (-500) draggingBoard).doors
              = Json.arr ([sampleDoor].map f)
            ∧ (f sampleDoor).getProp "x" = some (Json.num 0)
            ∧ (f sampleDoor).getProp "y" = some (Json.num 0) := by
  have hid : strictEq (sampleDoor.getProp "id") draggingBoard.dragRef.id = true := by
    simp [sampleDoor, draggingBoard, strictEq, Json.getProp, List.lookup]
  have hw : 1 ≤ draggingBoard.displaySize.width := by
    norm_num [draggingBoard, sampleBoard, blankBoard, baseWidth]
  have hh : 1 ≤ draggingBoard.displaySize.height := by
    norm_num [draggingBoard, sampleBoard, blankBoard, baseHeight]
  obtain ⟨f, h1, _, h3⟩ :=
    (onMove_clamps draggingBoard { left := 0, top := 0 } (-500) (-500) [sampleDoor] rfl hw hh).2
      rfl
  refine ⟨rfl, hw, hh, rfl, hid, f, h1, ?_, ?_⟩
  · rw [(h3 sampleDoor hid).1]
    norm_num [pointerBase, draggingBoard, sampleBoard, blankBoard, baseWidth]
  · rw [(h3 sampleDoor hid).2.1]
    norm_num [pointerBase, draggingBoard, sampleBoard, blankBoard, baseHeight]

/-- C6, at a failing input. With a square background image the renderer divides
the height by `calHeight = 1920` while the drag handlers divide it by
`baseHeight = 1080`: in a 1080 by 1080 window the rendered box is 1080 by 1080,
the base point `(100, 960)` is drawn at `(56.25, 540)`, and the pointer mapping
takes that display point back to `(100, 540)`, not to `(100, 960)`. -/
theorem pointerBase_toDisplay_squareImage :
    (eff (some squareImage) 1080 1080).width = 1080
      ∧ (eff (some squareImage) 1080 1080).height = 1080
      ∧ toDisplay (some squareImage) (eff (some squareImage) 1080 1080) 100 960 = (225 / 4, 540)
      ∧ pointerBase (eff (some squareImage) 1080 1080) { left := 0, top := 0 }
          (toDisplay (some squareImage) (eff (some squareImage) 1080 1080) 100 960).1
          (toDisplay (some squareImage) (eff (some squareImage) 1080 1080) 100 960).2
          = (100, 540) := by
  have hv : viewportScale (some squareImage) 1080 1080 = 9 / 16 := by
    norm_num [viewportScale, calendarHeight_squareImage, calendarWidth, baseWidth]
  have hw : (eff (some squareImage) 1080 1080).width = 1080 := by
    have h : calendarWidth * (9 / 16 : ℚ) = ((1080 : ℤ) : ℚ) := by
      norm_num [calendarWidth, baseWidth]
    simp only [eff, hv, h, jsRound_intCast]
    norm_num
  have hh : (eff (some squareImage) 1080 1080).height = 1080 := by
    have h : ((1920 : ℤ) : ℚ) * (9 / 16 : ℚ) = ((1080 : ℤ) : ℚ) := by norm_num
    simp only [eff, hv, calendarHeight_squareImage, h, jsRound_intCast]
    norm_num
  refine ⟨hw, hh, ?_, ?_⟩
  · simp only [toDisplay, renderScale, hw, hh, calendarHeight_squareImage]
    norm_num [baseWidth]
  · simp only [pointerBase, toDisplay, renderScale, hw, hh, calendarHeight_squareImage]
    norm_num [baseWidth, baseHeight]

/-- C7. For every image aspect with a positive calendar height and every window
of `innerWidth` by `innerHeight` pixels (natural numbers), the rendered box `eff`
is at most the window in both dimensions. -/
theorem eff_le_window (img : Option ImgNatural) (innerWidth innerHeight : ℕ)
    (hpos : 0 < calendarHeight img) :
    (eff img innerWidth innerHeight).width ≤ innerWidth
      ∧ (eff img innerWidth innerHeight).height ≤ innerHeight := by
  have hc : (0 : ℚ) < (calendarHeight img : ℚ) := by exact_mod_cast hpos
  have hW : (0 : ℚ) < calendarWidth := by norm_num [calendarWidth, baseWidth]
  constructor
  · have h1 : calendarWidth * viewportScale img innerWidth innerHeight
        ≤ ((innerWidth : ℤ) : ℚ) := by
      calc calendarWidth * viewportScale img innerWidth innerHeight
          ≤ calendarWidth * ((innerWidth : ℚ) / calendarWidth) :=
            mul_le_mul_of_nonneg_left (min_le_left _ _) hW.le
        _ = ((innerWidth : ℤ) : ℚ) := by
            rw [mul_div_cancel₀ _ hW.ne.symm]; norm_cast
    have h2 := jsRound_le_of_le _ _ h1
    show ((jsRound _ : ℤ) : ℚ) ≤ (innerWidth : ℚ)
    exact_mod_cast h2
  · have h1 : (calendarHeight img : ℚ) * viewportScale img innerWidth innerHeight
        ≤ ((innerHeight : ℤ) : ℚ) := by
      calc (calendarHeight img : ℚ) * viewportScale img innerWidth innerHeight
          ≤ (calendarHeight img : ℚ) * ((innerHeight : ℚ) / (calendarHeight img : ℚ)) :=
            mul_le_mul_of_nonneg_left (min_le_right _ _) hc.le
        _ = ((innerHeight : ℤ) : ℚ) := by
            rw [mul_div_cancel₀ _ hc.ne.symm]; norm_cast
    have h2 := jsRound_le_of_le _ _ h1
    show ((jsRound _ : ℤ) : ℚ) ≤ (innerHeight : ℚ)
    exact_mod_cast h2

/-- C7, with no background image (calendar height 1080) in a 1366 by 768 window. -/
theorem eff_le_window_witness :
    0 < calendarHeight none
      ∧ (eff none 1366 768).width ≤ ((1366 : ℕ) : ℚ)
      ∧ (eff none 1366 768).height ≤ ((768 : ℕ) : ℚ) :=
  ⟨by rw [calendarHeight_none]; norm_num,
   eff_le_window none 1366 768 (by rw [calendarHeight_none]; norm_num)⟩

/-- C8, as stated, fails: in a 0 by 0 window the rendered box `eff` is 0 by 0. -/
theorem eff_zero_window :
    (eff none 0 0).width = 0 ∧ (eff none 0 0).height = 0 := by
  have hv : viewportScale none 0 0 = 0 := by
    simp [viewportScale]
  have h0 : jsRound 0 = 0 := by
    have := jsRound_intCast 0
    simpa using this
  constructor <;> simp [eff, hv, h0]

/-- C8, amended. For every image aspect with a positive calendar height and every
window (natural-number sizes, 0 by 0 included) the rendered box `eff` has a width
and a height of at least 0. Its width is at least 1 exactly when
`innerWidth ≥ 1` and `calendarHeight ≤ 3840 * innerHeight`, its height exactly
when `innerHeight ≥ 1` and `calendarHeight * innerWidth ≥ 960`; without a
background image that is: exactly when the window dimension is at least 1.
The box held to at least 1 by 1 for every measurement is `displaySize`. -/
theorem eff_nonneg_displaySize_pos (img : Option ImgNatural) (innerWidth innerHeight : ℕ)
    (hpos : 0 < calendarHeight img) :
    0 ≤ (eff img innerWidth innerHeight).width
      ∧ 0 ≤ (eff img innerWidth innerHeight).height
      ∧ (1 ≤ (eff img innerWidth innerHeight).width
          ↔ 1 ≤ innerWidth ∧ calendarHeight img ≤ 3840 * (innerHeight : ℤ))
      ∧ (1 ≤ (eff img innerWidth innerHeight).height
          ↔ 1 ≤ innerHeight ∧ 960 ≤ calendarHeight img * (innerWidth : ℤ))
      ∧ (img = none →
          ((1 ≤ (eff img innerWidth innerHeight).width
              ∧ 1 ≤ (eff img innerWidth innerHeight).height)
            ↔ 1 ≤ innerWidth ∧ 1 ≤ innerHeight))
      ∧ ∀ (r : Size) (s : AppState),
          1 ≤ (measure (some r) s).displaySize.width
            ∧ 1 ≤ (measure (some r) s).displaySize.height := by
  have hc : (0 : ℚ) < (calendarHeight img : ℚ) := by exact_mod_cast hpos
  have hv := viewportScale_nonneg img innerWidth innerHeight hpos
  have hwi := one_le_eff_width_iff img innerWidth innerHeight hpos
  have hhi := one_le_eff_height_iff img innerWidth innerHeight hpos
  refine ⟨?_, ?_, hwi, hhi, ?_, ?_⟩
  · show (0 : ℚ) ≤ ((jsRound _ : ℤ) : ℚ)
    exact_mod_cast jsRound_nonneg _
      (mul_nonneg (by norm_num [calendarWidth, baseWidth]) hv)
  · show (0 : ℚ) ≤ ((jsRound _ : ℤ) : ℚ)
    exact_mod_cast jsRound_nonneg _ (mul_nonneg hc.le hv)
  · intro himg
    subst himg
    rw [hwi, hhi, calendarHeight_none]
    constructor
    · rintro ⟨⟨h1, _⟩, h2, _⟩
      exact ⟨h1, h2⟩
    · rintro ⟨h1, h2⟩
      refine ⟨⟨h1, ?_⟩, h2, ?_⟩ <;> omega
  · intro r s
    exact ⟨le_max_left _ _, le_max_left _ _⟩

/-- C8, amended, without a background image: the 0 by 0 window, where `eff` is
not below 0 and the measured `displaySize` not below 1, and the 1 by 1 window,
where `eff` is at least 1 by 1. -/
theorem eff_nonneg_displaySize_pos_witness :
    0 < calendarHeight none
      ∧ 0 ≤ (eff none 0 0).width
      ∧ 0 ≤ (eff none 0 0).height
      ∧ 1 ≤ (measure (some { width := 0, height := 0 }) blankBoard).displaySize.width
      ∧ 1 ≤ (measure (some { width := 0, height := 0 }) blankBoard).displaySize.height
      ∧ 1 ≤ (eff none 1 1).width
      ∧ 1 ≤ (eff none 1 1).height :=
  have hp : 0 < calendarHeight none := by rw [calendarHeight_none]; norm_num
  have h := eff_nonneg_displaySize_pos none 0 0 hp
  have h1 := ((eff_nonneg_displaySize_pos none 1 1 hp).2.2.2.2.1 rfl).2
    ⟨le_refl 1, le_refl 1⟩
  ⟨hp, h.1, h.2.1,
    (h.2.2.2.2.2 { width := 0, height := 0 } blankBoard).1,
    (h.2.2.2.2.2 { width := 0, height := 0 } blankBoard).2, h1.1, h1.2⟩

/-- C9, at a failing input. The code of `paintedBoard` carries the name
`Noël 🎄`; importing it into the blank board, with or without the edit flag, and
hydrating from its path at start-up, all leave the calendar name `My Calendar`:
the name in the code is never read. -/
theorem import_ignores_name :
    (decodeState refCodec (encodeState refCodec (payload paintedBoard))).getProp "name"
        = some (Json.str "Noël 🎄")
      ∧ (handleImportCode refCodec (encodeState refCodec (payload paintedBoard)) false
          blankBoard).globalName = "My Calendar"
      ∧ (handleImportCode refCodec (encodeState refCodec (payload paintedBoard)) true
          blankBoard).globalName = "My Calendar"
      ∧ (mount refCodec (Json.arr [])
          ("/" ++ encodeState refCodec (payload paintedBoard))).globalName = "My Calendar" := by
  refine ⟨?_, ?_, ?_, ?_⟩
  · rw [decodeState_encodeState_eq refCodec refCodec_reversible]
    simp [payload, paintedBoard, Json.getProp, List.lookup]
  · rw [handleImportCode_globalName]; rfl
  · rw [handleImportCode_globalName]; rfl
  · exact mount_globalName _ _ _

/-- C10. Whatever the host's `toISOString` and whatever valid dates the clock
returns while the registry is built, `defaultDoors` has exactly 24 doors, their
ids are 1, 2, ..., 24 in that order, pairwise distinct, and for every `k` from 1
to 24 door `k` has id `k` and the opening date of local midnight on day `k` of
month index 11 (December) of the clock's year. -/
theorem defaultDoors_spec (toISOString : JsDate → String) (clock : ℕ → JsDate)
    (hclock : ∀ i, (clock i).Valid) :
    (defaultDoors toISOString clock).length = 24
      ∧ (defaultDoors toISOString clock).map (fun d => d.getProp "id")
          = (List.range 24).map (fun (i : ℕ) => some (Json.num ((i : ℚ) + 1)))
      ∧ ((defaultDoors toISOString clock).map (fun d => d.getProp "id")).Nodup
      ∧ ∀ k : ℕ, 1 ≤ k → k ≤ 24 →
          ((defaultDoors toISOString clock)[k - 1]?).bind (fun d => d.getProp "id")
              = some (Json.num (k : ℚ))
            ∧ ((defaultDoors toISOString clock)[k - 1]?).bind
                (fun d => d.getProp "openingDate")
              = some (Json.str (toISOString
                  { year := (clock (k - 1)).year, month := 11, date := k, hours := 0,
                    minutes := 0, seconds := 0, ms := 0 })) := by
  have hids : (defaultDoors toISOString clock).map (fun d => d.getProp "id")
      = (List.range 24).map (fun (i : ℕ) => some (Json.num ((i : ℚ) + 1))) := by
    simp [defaultDoors, defaultDoor, Json.getProp, List.lookup, Function.comp_def]
  refine ⟨by simp [defaultDoors], hids, ?_, ?_⟩
  · rw [hids]
    apply List.Nodup.map _ (List.nodup_range 24)
    intro a b hab
    simp only [Option.some.injEq, Json.num.injEq, add_left_inj, Nat.cast_inj] at hab
    exact hab
  · intro k hk1 hk24
    obtain ⟨i, rfl⟩ : ∃ i, k = i + 1 := ⟨k - 1, by omega⟩
    have hi : i < 24 := by omega
    have hget : (defaultDoors toISOString clock)[i + 1 - 1]?
        = some (defaultDoor toISOString (clock i) i) := by
      simp [defaultDoors, List.getElem?_map, List.getElem?_range hi]
    rw [hget]
    constructor
    · simp [defaultDoor, Json.getProp, List.lookup]
    · simp [defaultDoor, Json.getProp, List.lookup, defaultDate_eq _ (hclock i) i hi]

/-- C10, with the clock stopped on 31 October 2026: the registry has 24 doors, and
doors 1 and 24 open at local midnight on 1 and 24 December 2026. -/
theorem defaultDoors_spec_witness :
    (∀ i, (sampleClock i).Valid)
      ∧ (defaultDoors sampleISO sampleClock).length = 24
      ∧ ((defaultDoors sampleISO sampleClock)[0]?).bind (fun d => d.getProp "openingDate")
          = some (Json.str (sampleISO
              { year := 2026, month := 11, date := 1, hours := 0, minutes := 0,
                seconds := 0, ms := 0 }))
      ∧ ((defaultDoors sampleISO sampleClock)[23]?).bind (fun d => d.getProp "openingDate")
          = some (Json.str (sampleISO
              { year := 2026, month := 11, date := 24, hours := 0, minutes := 0,
                seconds := 0, ms := 0 })) :=
  have hv : ∀ i, (sampleClock i).Valid := fun _ => by
    simp [JsDate.Valid, sampleClock, daysInMonth]
  have h := defaultDoors_spec sampleISO sampleClock hv
  ⟨hv, h.1, (h.2.2.2 1 (by decide) (by decide)).2, (h.2.2.2 24 (by decide) (by decide)).2⟩

/-- C11. `updateDoor(id, patch)` on a registry of door records, for a patch with
no `id` field (a record, so its field names are distinct): the result has the
same length and the same ids in the same order; a door whose id is not `id` is
unchanged; a door whose id is `id` becomes a record that holds every field of
the patch with the patch's value and every other field as it was; and when the
ids of the registry are pairwise distinct, at most one position changes. -/
theorem updateDoor_frame (id : Option Json) (patch : List (String × Json)) (ds : List Json)
    (_hrec : ∀ d ∈ ds, isRecord d = true) (hkeys : (patch.map Prod.fst).Nodup)
    (hid : "id" ∉ patch.map Prod.fst) :
    (updateDoor id patch ds).length = ds.length
      ∧ (updateDoor id patch ds).map (fun d => d.getProp "id")
          = ds.map (fun d => d.getProp "id")
      ∧ (∀ (i : ℕ) (d : Json), ds[i]? = some d →
          (strictEq (d.getProp "id") id = false → (updateDoor id patch ds)[i]? = some d)
            ∧ (strictEq (d.getProp "id") id = true →
                ∃ d2, (updateDoor id patch ds)[i]? = some d2
                  ∧ isRecord d2 = true
                  ∧ (∀ k v, (k, v) ∈ patch → d2.getProp k = some v)
                  ∧ ∀ k, k ∉ patch.map Prod.fst → d2.getProp k = d.getProp k))
      ∧ ((ds.map (fun d => d.getProp "id")).Nodup →
          ∀ (i j : ℕ) (d e : Json), ds[i]? = some d → ds[j]? = some e →
            (updateDoor id patch ds)[i]? ≠ some d → (updateDoor id patch ds)[j]? ≠ some e →
            i = j) := by
  have hget : ∀ (i : ℕ) (d : Json), ds[i]? = some d →
      (updateDoor id patch ds)[i]?
        = some (if strictEq (d.getProp "id") id then spread d patch else d) := by
    intro i d hd
    simp [updateDoor, hd]
  have hmatch : ∀ (i : ℕ) (d : Json), ds[i]? = some d →
      (updateDoor id patch ds)[i]? ≠ some d → d.getProp "id" = id := by
    intro i d hd hne
    apply strictEq_eq
    by_contra hs
    rw [hget i d hd] at hne
    simp [hs] at hne
  refine ⟨by simp [updateDoor], ?_, ?_, ?_⟩
  · simp only [updateDoor, List.map_map]
    apply List.map_congr_left
    intro d _
    simp only [Function.comp_apply]
    split
    · exact getProp_spread_of_not_mem d patch "id" hid
    · rfl
  · intro i d hd
    constructor
    · intro hs
      rw [hget i d hd]
      simp [hs]
    · intro hs
      refine ⟨spread d patch, ?_, rfl, ?_, ?_⟩
      · rw [hget i d hd]
        simp [hs]
      · intro k v hkv
        exact getProp_spread_of_mem d patch k v hkeys hkv
      · intro k hk
        exact getProp_spread_of_not_mem d patch k hk
  · intro hnd i j d e hd he hi hj
    have h1 := hmatch i d hd hi
    have h2 := hmatch j e he hj
    apply index_eq_of_nodup _ hnd i j id
    · simp [hd, h1]
    · simp [he, h2]

/-- C11, on the registry of the two sample doors: recoloring door 1 keeps both
ids, leaves door 2 as it is, and gives door 1 the new color and its old `x`. -/
theorem updateDoor_frame_witness :
    (∀ d ∈ [sampleDoor, secondDoor], isRecord d = true)
      ∧ ([("color", Json.str "#ff0000")].map Prod.fst).Nodup
      ∧ "id" ∉ [("color", Json.str "#ff0000")].map Prod.fst
      ∧ (updateDoor (some (Json.num 1)) [("color", Json.str "#ff0000")]
            [sampleDoor, secondDoor]).length = 2
      ∧ (updateDoor (some (Json.num 1)) [("color", Json.str "#ff0000")]
            [sampleDoor, secondDoor]).map (fun d => d.getProp "id")
          = [some (Json.num 1), some (Json.num 2)]
      ∧ (updateDoor (some (Json.num 1)) [("color", Json.str "#ff0000")]
            [sampleDoor, secondDoor])[1]? = some secondDoor
      ∧ ∃ d2, (updateDoor (some (Json.num 1)) [("color", Json.str "#ff0000")]
            [sampleDoor, secondDoor])[0]? = some d2
          ∧ d2.getProp "color" = some (Json.str "#ff0000")
          ∧ d2.getProp "x" = some (Json.num 20) := by
  have hrec : ∀ d ∈ [sampleDoor, secondDoor], isRecord d = true := by
    simp [sampleDoor, secondDoor, isRecord]
  have hkeys : ([("color", Json.str "#ff0000")].map Prod.fst).Nodup := by simp
  have hid : "id" ∉ [("color", Json.str "#ff0000")].map Prod.fst := by simp
  have h := updateDoor_frame (some (Json.num 1)) [("color", Json.str "#ff0000")]
    [sampleDoor, secondDoor] hrec hkeys hid
  have h1 : strictEq (sampleDoor.getProp "id") (some (Json.num 1)) = true := by
    simp [sampleDoor, strictEq, Json.getProp, List.lookup]
  have h2 : strictEq (secondDoor.getProp "id") (some (Json.num 1)) = false := by
    simp [secondDoor, strictEq, Json.getProp, List.lookup]
  obtain ⟨d2, hd2, _, hin, hout⟩ := (h.2.2.1 0 sampleDoor rfl).2 h1
  refine ⟨hrec, hkeys, hid, h.1, ?_, (h.2.2.1 1 secondDoor rfl).1 h2, d2, hd2, ?_, ?_⟩
  · rw [h.2.1]
    simp [sampleDoor, secondDoor, Json.getProp, List.lookup]
  · exact hin "color" _ (by simp)
  · rw [hout "x" (by simp)]
    simp [sampleDoor, Json.getProp, List.lookup]

end AdventCalendar
